import Mathlib

/-!
Shallow embedding of the `intercept` package: the request/response Message
Modifiers (`RequestModifier`, `ResponseModifier`) and the response
interception sink (`WriterInterceptor`) with its middleware entry point
(`Response`), transcribed from `response.go` and the request-modifier
source file.  Go mutation is modelled by explicit state passing; the real
`http.ResponseWriter` is modelled by the chronological trace of calls it
receives; the interceptor's `sync.Mutex` is modelled by a `mutexLocked`
flag (locking a locked mutex from the same task never returns, which is
modelled as `Option.none`).
-/

namespace Intercept

/-- Content of a Go `[]byte` / `string` value, modelled as a list of characters. -/
abbrev ByteSeq := List Char

/-- Go `http.Header`: field name to ordered list of values. The source only
ever uses canonical field names ("Content-Length", "Content-Type"), so an
association list with exact key matching is faithful. -/
abbrev Header := List (String × List String)

/-- Model of `http.Header.Get`: first value registered for the key, or `""` when the
key is absent or has no values. -/
def headerGet (h : Header) (k : String) : String :=
  match h.find? (fun p => p.1 == k) with
  | some p => p.2.headD ""
  | none => ""

/-- Model of `http.Header.Set`: replace all values of the key by the single given
value (as a map update; the position of the key in the list is irrelevant
to `headerGet`). -/
def headerSet (h : Header) (k v : String) : Header :=
  h.filter (fun p => p.1 != k) ++ [(k, [v])]

/-- A one-shot readable body stream (Go `io.ReadCloser`).
`mem d` is an in-memory reader (`bytes.Reader`, `bytes.Buffer` or
`strings.Reader`, possibly wrapped in `ioutil.NopCloser`) whose unread
content is `d`.  `failAfter d` yields `d` and then fails with a read
error; `failAfter []` is the test suite's `errorReader`.  `Close` is a
no-op on every modelled stream, as it is for `ioutil.NopCloser`. -/
inductive Stream where
  | mem (d : ByteSeq)
  | failAfter (d : ByteSeq)
deriving DecidableEq

/-- Model of `ioutil.ReadAll` on a body stream: the bytes obtained, the drained
stream that the body field keeps referring to afterwards, and whether a
read error occurred. -/
def readAll : Stream → ByteSeq × Stream × Bool
  | .mem d => (d, .mem [], false)
  | .failAfter d => (d, .failAfter [], true)

/-- The fields of Go `http.Request` that the sources touch. `body = none`
models a nil `Body`. -/
structure HttpRequest where
  method : String
  header : Header
  body : Option Stream
  contentLength : Int
deriving DecidableEq

/-- The fields of Go `http.Response` that the sources touch. -/
structure HttpResponse where
  statusCode : Nat
  status : String
  header : Header
  body : Stream
  contentLength : Int
deriving DecidableEq

/-- Fragment of `http.StatusText`'s table (the reason phrase is never
inspected by any claim; unknown codes map to `""` as in Go). -/
def statusText (code : Nat) : String :=
  match code with
  | 200 => "OK"
  | 404 => "Not Found"
  | 500 => "Internal Server Error"
  | _ => ""

/-- Errors surfaced by the modifier operations. -/
inductive GoErr where
  | readErr
  | syntaxErr (msg : String)
deriving DecidableEq

/-- Outcome of a body-reading operation over a message state of type `σ`:
`panicNil` models the Go nil-pointer panic when the body is absent, `err`
returns the unswallowed error with the message state left behind, `ok`
returns the bytes read together with the re-armed message state. -/
inductive ReadOutcome (σ : Type) where
  | panicNil
  | err (e : GoErr) (s : σ)
  | ok (buf : ByteSeq) (s : σ)
deriving DecidableEq

/-- Result of one `Decode` call of an `encoding/json` or `encoding/xml`
decoder over a fully buffered input: a decoded value, `io.EOF`, or a
syntax error. The decoder itself is external library code, so it enters
the model as a function argument. -/
inductive DecodeResult (V : Type) where
  | ok (v : V)
  | eof
  | syntaxErr (msg : String)
deriving DecidableEq

/-- Outcome of a structured-decode operation: `panicNil` as above, `err`
carries the unswallowed error, `ok` carries the resulting target value. -/
inductive DecodeOutcome (V σ : Type) where
  | panicNil
  | err (e : GoErr) (s : σ)
  | ok (target : V) (s : σ)
deriving DecidableEq

/-- Method `RequestModifier.Bytes`: sets the given bytes as the request body
(no method guard). -/
def RequestModifier.Bytes (body : ByteSeq) (s : HttpRequest) : HttpRequest :=
  { s with body := some (Stream.mem body) }

/-- Method `RequestModifier.String`: sets the given string as the request body,
except for GET and HEAD requests where it returns without doing anything. -/
def RequestModifier.String (body : ByteSeq) (s : HttpRequest) : HttpRequest :=
  if s.method = "GET" ∨ s.method = "HEAD" then s
  else { s with body := some (Stream.mem body) }

/-- Method `RequestModifier.ReadBytes`: drains the request body via `ReadAll`; on
success stores the bytes back with `s.Bytes(buf)` (re-arming the body) and
returns them; on failure returns the error, leaving the body as the
drained reader. -/
def RequestModifier.ReadBytes (s : HttpRequest) : ReadOutcome HttpRequest :=
  match s.body with
  | none => .panicNil
  | some st =>
    match readAll st with
    | (buf, st2, failed) =>
      if failed then .err .readErr { s with body := some st2 }
      else .ok buf (RequestModifier.Bytes buf { s with body := some st2 })

/-- Method `RequestModifier.DecodeJSON` (and, with an XML decoder, `DecodeXML`):
reads the body via `ReadBytes`, then decodes the buffer; a decoder result
of `io.EOF` is not an error and leaves the target untouched. -/
def RequestModifier.DecodeJSON {V : Type} (dec : ByteSeq → DecodeResult V)
    (s : HttpRequest) (target : V) : DecodeOutcome V HttpRequest :=
  match RequestModifier.ReadBytes s with
  | .panicNil => .panicNil
  | .err e s2 => .err e s2
  | .ok buf s2 =>
    match dec buf with
    | .ok v => .ok v s2
    | .eof => .ok target s2
    | .syntaxErr msg => .err (.syntaxErr msg) s2

/-- Struct `ResponseModifier` wraps the request and the response to be modified
(its Go `Header` field is an alias of `response.header` and is therefore
not duplicated here). -/
structure ResponseModifier where
  request : HttpRequest
  response : HttpResponse
deriving DecidableEq

/-- Method `ResponseModifier.Bytes`: sets the given bytes as the response body. -/
def ResponseModifier.Bytes (body : ByteSeq) (s : ResponseModifier) : ResponseModifier :=
  { s with response := { s.response with body := Stream.mem body } }

/-- Method `ResponseModifier.ReadBytes`: drains the response body via `ReadAll`;
on success re-arms the body via `s.Bytes(buf)` and returns the bytes; on
failure returns the error with the body left drained. -/
def ResponseModifier.ReadBytes (s : ResponseModifier) : ReadOutcome ResponseModifier :=
  match readAll s.response.body with
  | (buf, st2, failed) =>
    if failed then .err .readErr { s with response := { s.response with body := st2 } }
    else .ok buf (ResponseModifier.Bytes buf { s with response := { s.response with body := st2 } })

/-- Method `ResponseModifier.DecodeJSON` (and, with an XML decoder, `DecodeXML`):
reads the body via `ReadBytes`, then decodes the buffer; `io.EOF` from the
decoder is not an error and leaves the target untouched. -/
def ResponseModifier.DecodeJSON {V : Type} (dec : ByteSeq → DecodeResult V)
    (s : ResponseModifier) (target : V) : DecodeOutcome V ResponseModifier :=
  match ResponseModifier.ReadBytes s with
  | .panicNil => .panicNil
  | .err e s2 => .err e s2
  | .ok buf s2 =>
    match dec buf with
    | .ok v => .ok v s2
    | .eof => .ok target s2
    | .syntaxErr msg => .err (.syntaxErr msg) s2

/-- Dynamic type of the `io.Reader` argument of `Reader`, as inspected by
its type switch; the payload of the in-memory cases is the reader's unread
content (`v.Len()`). -/
inductive ReaderArg where
  | nilReader
  | bytesBuffer (d : ByteSeq)
  | bytesReader (d : ByteSeq)
  | stringsReader (d : ByteSeq)
  | generic (st : Stream)
deriving DecidableEq

/-- Method `ResponseModifier.Reader`, transcribed from `response.go` lines
148-168.  Note that the source binds `req := s.Request` and then assigns
`req.ContentLength` and `req.Body`: it mutates the wrapped request, not
the response. -/
def ResponseModifier.Reader (body : ReaderArg) (s : ResponseModifier) : ResponseModifier :=
  let rc : Option Stream :=
    match body with
    | .nilReader => none
    | .bytesBuffer d => some (Stream.mem d)
    | .bytesReader d => some (Stream.mem d)
    | .stringsReader d => some (Stream.mem d)
    | .generic st => some st
  let req := s.request
  let req :=
    match body with
    | .bytesBuffer d => { req with contentLength := (d.length : Int) }
    | .bytesReader d => { req with contentLength := (d.length : Int) }
    | .stringsReader d => { req with contentLength := (d.length : Int) }
    | _ => req
  { s with request := { req with body := rc } }

/-- A call observed by the real `http.ResponseWriter` behind the
interceptor: a `WriteHeader(code)` call, the header-copy loop of
`writeHeader`, or a `Write(b)` call. -/
inductive SinkEvent where
  | status (code : Nat)
  | headerCopy (h : Header)
  | bodyWrite (b : ByteSeq)
deriving DecidableEq

/-- Decimal digits to a natural number; `none` on a non-digit. -/
def digitsAux (acc : Nat) : List Char → Option Nat
  | [] => some acc
  | c :: cs => if c.isDigit then digitsAux (acc * 10 + (c.toNat - 48)) cs else none

/-- A non-empty all-digit character list as a natural number. -/
def digitsToNat? (cs : List Char) : Option Nat :=
  match cs with
  | [] => none
  | _ => digitsAux 0 cs

/-- Model of `strconv.Atoi` with its error ignored (`cl, _ := strconv.Atoi(length)`
in `Write`): an optional sign followed by digits; yields 0 when the string
does not parse as an integer. -/
def atoi (s : String) : Int :=
  match s.data with
  | '-' :: cs => match digitsToNat? cs with | some n => -(n : Int) | none => 0
  | '+' :: cs => match digitsToNat? cs with | some n => (n : Int) | none => 0
  | cs => match digitsToNat? cs with | some n => (n : Int) | none => 0

/-- State of a `WriterInterceptor`.  The Go struct's `writer` field (the
real sink) is modelled by the trace `sink` of calls made on it, its
`modifier` field is passed as a function argument to the operations, and
its `mutex` by the `mutexLocked` flag.  `modifierCalls` is a ghost counter
of modifier invocations. -/
structure WriterInterceptor where
  closed : Bool
  headerWritten : Bool
  mutexLocked : Bool
  buf : ByteSeq
  response : HttpResponse
  sink : List SinkEvent
  modifierCalls : Nat
deriving DecidableEq

/-- Constructor `NewWriterInterceptor`: fresh interceptor around a synthetic pending
response with status 200, empty headers and an empty in-memory body. -/
def NewWriterInterceptor : WriterInterceptor :=
  { closed := false
    headerWritten := false
    mutexLocked := false
    buf := []
    response :=
      { statusCode := 200
        status := "200 OK"
        header := []
        body := Stream.mem []
        contentLength := 0 }
    sink := []
    modifierCalls := 0 }

/-- Method `WriterInterceptor.WriteHeader`: records the desired status code and
reason phrase in the pending response. -/
def WriterInterceptor.WriteHeader (status : Nat) (w : WriterInterceptor) : WriterInterceptor :=
  { w with response :=
      { w.response with statusCode := status
                        status := toString status ++ " " ++ statusText status } }

/-- Method `WriterInterceptor.Close`: takes the mutex, returns immediately if
already closed (the source returns without unlocking, so the mutex stays
held), otherwise marks closed, discards the buffer, closes the pending
body (a no-op on every modelled stream) and unlocks.  `none` models a call
that blocks forever in `mutex.Lock()`. -/
def WriterInterceptor.Close (w : WriterInterceptor) : Option WriterInterceptor :=
  if w.mutexLocked then none
  else if w.closed then some { w with mutexLocked := true }
  else some { w with closed := true, buf := [], mutexLocked := false }

/-- Method `WriterInterceptor.writeHeader`: if neither done nor closed, emit the
status code (when non-zero) to the real sink, copy the pending header
fields into the real sink's header collection, and mark headers written. -/
def WriterInterceptor.writeHeader (w : WriterInterceptor) : WriterInterceptor :=
  if w.headerWritten || w.closed then w
  else
    let w1 := if w.response.statusCode ≠ 0 then
                { w with sink := w.sink ++ [SinkEvent.status w.response.statusCode] }
              else w
    { w1 with sink := w1.sink ++ [SinkEvent.headerCopy w1.response.header]
              headerWritten := true }

/-- Method `WriterInterceptor.writeBody`: unless closed, drain the pending body,
write it to the real sink and (via the deferred `Close`) transition to
closed; a read failure also closes, and the error is returned. -/
def WriterInterceptor.writeBody (w : WriterInterceptor) : Option (WriterInterceptor × Nat × Bool) :=
  if w.closed then some (w, 0, false)
  else
    match readAll w.response.body with
    | (buf, st2, failed) =>
      let w1 := { w with response := { w.response with body := st2 } }
      if failed then
        (WriterInterceptor.Close w1).map (fun w2 => (w2, 0, true))
      else
        let w2 := { w1 with sink := w1.sink ++ [SinkEvent.bodyWrite buf] }
        (WriterInterceptor.Close w2).map (fun w3 => (w3, buf.length, false))

/-- Method `WriterInterceptor.DoWrite`: header phase, then body phase. -/
def WriterInterceptor.DoWrite (w : WriterInterceptor) : Option (WriterInterceptor × Nat × Bool) :=
  WriterInterceptor.writeBody (WriterInterceptor.writeHeader w)

/-- Method `WriterInterceptor.Write`, transcribed from `response.go` lines
211-230.  With no declared Content-Length (header `""` or `"0"`) the chunk
is stored in `buf` and `DoWrite` is invoked at once; otherwise the chunk
is accumulated and, exactly when the running `ContentLength` equals the
declared value, the pending body is set to the accumulated buffer, the
modifier is invoked, and `DoWrite` flushes. -/
def WriterInterceptor.Write (mod : HttpResponse → HttpResponse) (b : ByteSeq)
    (w : WriterInterceptor) : Option (WriterInterceptor × Nat × Bool) :=
  let length := headerGet w.response.header "Content-Length"
  if length = "" ∨ length = "0" then
    WriterInterceptor.DoWrite { w with buf := b }
  else
    let w1 := { w with
      response := { w.response with contentLength := w.response.contentLength + (b.length : Int) }
      buf := w.buf ++ b }
    if w1.response.contentLength ≠ atoi length then some (w1, b.length, false)
    else
      let w2 := { w1 with response := { w1.response with body := Stream.mem w1.buf } }
      let w3 := { w2 with response := mod w2.response, modifierCalls := w2.modifierCalls + 1 }
      WriterInterceptor.DoWrite w3

/-- Operations a host (handler or close coordinator) can drive a
`WriterInterceptor` with. -/
inductive Op where
  | setStatus (code : Nat)
  | setHeader (k v : String)
  | write (b : ByteSeq)
  | close
  | doWrite

/-- One operation against the interceptor (`setHeader` models the handler
mutating the live header collection returned by `Header()`). -/
def stepOp (mod : HttpResponse → HttpResponse) (op : Op) (w : WriterInterceptor) :
    Option WriterInterceptor :=
  match op with
  | .setStatus n => some (WriterInterceptor.WriteHeader n w)
  | .setHeader k v =>
      some { w with response := { w.response with header := headerSet w.response.header k v } }
  | .write b => (WriterInterceptor.Write mod b w).map (fun p => p.1)
  | .close => WriterInterceptor.Close w
  | .doWrite => (WriterInterceptor.DoWrite w).map (fun p => p.1)

/-- Run a sequence of operations against the interceptor. -/
def runOps (mod : HttpResponse → HttpResponse) (ops : List Op) (w : WriterInterceptor) :
    Option WriterInterceptor :=
  match ops with
  | [] => some w
  | op :: rest => (stepOp mod op w).bind (fun w2 => runOps mod rest w2)

/-- Run a sequence of `Write` calls against the interceptor. -/
def runWrites (mod : HttpResponse → HttpResponse) (bs : List ByteSeq) (w : WriterInterceptor) :
    Option WriterInterceptor :=
  match bs with
  | [] => some w
  | b :: rest => (WriterInterceptor.Write mod b w).bind (fun p => runWrites mod rest p.1)

/-- Iterates `n` successive `Close` calls from one task; `none` as soon as one of
them blocks forever. -/
def CloseN (n : Nat) (w : WriterInterceptor) : Option WriterInterceptor :=
  match n with
  | 0 => some w
  | n + 1 => (WriterInterceptor.Close w).bind (fun w2 => CloseN n w2)

/-- The calls a wrapped handler performs on whatever sink it is given. -/
inductive HandlerOp where
  | setStatus (code : Nat)
  | write (b : ByteSeq)

/-- The sink event produced by a handler call made directly on the real
`http.ResponseWriter`. -/
def evOf : HandlerOp → SinkEvent
  | .setStatus n => SinkEvent.status n
  | .write b => SinkEvent.bodyWrite b

/-- Run the handler directly against the real sink (the bypass path). -/
def runDirect (h : List HandlerOp) (sink : List SinkEvent) : List SinkEvent :=
  match h with
  | [] => sink
  | op :: rest => runDirect rest (sink ++ [evOf op])

/-- A handler call, as an interceptor operation. -/
def opOf : HandlerOp → Op
  | .setStatus n => Op.setStatus n
  | .write b => Op.write b

/-- The middleware built by `Response(fn)`, from `response.go` lines
283-306: OPTIONS and HEAD requests run the handler against the real sink
directly; otherwise a fresh `WriterInterceptor` is installed and the
handler runs against it.  The result is the real sink's call trace paired
with the number of modifier invocations.  (The `CloseNotifier` goroutine
of the non-bypass path is a concurrent close coordinator and is not part
of this sequential run.) -/
def Response (mod : HttpResponse → HttpResponse) (h : List HandlerOp) (method : String) :
    Option (List SinkEvent × Nat) :=
  if method = "OPTIONS" ∨ method = "HEAD" then some (runDirect h [], 0)
  else (runOps mod (List.map opOf h) NewWriterInterceptor).map (fun w => (w.sink, w.modifierCalls))

/-- Number of writes in `bs` after which the running byte total (started
at `total`) equals `cl` exactly. -/
def countTriggers (cl : Int) (total : Int) (bs : List ByteSeq) : Nat :=
  match bs with
  | [] => 0
  | b :: rest =>
    (if total + (b.length : Int) = cl then 1 else 0) + countTriggers cl (total + (b.length : Int)) rest

/-- Is this sink event a body write? -/
def isBodyEv : SinkEvent → Bool
  | .bodyWrite _ => true
  | _ => false

/-- Is this sink event the header-copy part of the header phase? -/
def isCopyEv : SinkEvent → Bool
  | .headerCopy _ => true
  | _ => false

/-- Is this sink event a status-line write? -/
def isStatusEv : SinkEvent → Bool
  | .status _ => true
  | _ => false

/-- The trace is a block of non-body (header-phase) events followed by a
block of body writes: every header emission precedes every body emission. -/
def phasedTrace : List SinkEvent → Bool
  | [] => true
  | e :: rest => if isBodyEv e then rest.all isBodyEv else phasedTrace rest

end Intercept

namespace Intercept

/-- Starting interceptor state for a handler that declared the given
Content-Length header value before writing. -/
def withContentLength (v : String) : WriterInterceptor :=
  { NewWriterInterceptor with response :=
      { NewWriterInterceptor.response with header := headerSet [] "Content-Length" v } }

/-- Unread content of a stream, without consuming it. -/
def peek : Stream → ByteSeq
  | .mem d => d
  | .failAfter d => d

/-- A modifier that records the body it observes into the pending
response's status string, so a run exposes what the callback saw. -/
def recMod : HttpResponse → HttpResponse :=
  fun r => { r with status := String.mk (peek r.body) }

/-- C7: for requests whose method is GET or HEAD, the request variant of
setBody (`RequestModifier.String`) is a silent no-op: the request is
returned entirely unchanged, and in particular calling it with "x" on
such a request with no body leaves the body absent. -/
theorem string_noop_on_get_head (hdr : Header) (b0 : Option Stream) (cl : Int) (b : ByteSeq) :
    RequestModifier.String b ⟨"GET", hdr, b0, cl⟩ = ⟨"GET", hdr, b0, cl⟩ ∧
    RequestModifier.String b ⟨"HEAD", hdr, b0, cl⟩ = ⟨"HEAD", hdr, b0, cl⟩ ∧
    (RequestModifier.String "x".toList ⟨"GET", hdr, none, cl⟩).body = none ∧
    (RequestModifier.String "x".toList ⟨"HEAD", hdr, none, cl⟩).body = none :=
  ⟨rfl, rfl, rfl, rfl⟩

/-- C10: `RequestModifier.Bytes` installs the given bytes as the request
body for every method — the GET/HEAD guard exists only in the string
variant, not in the raw-bytes variant. -/
theorem bytes_sets_body_regardless_of_method (method : String) (hdr : Header)
    (b0 : Option Stream) (cl : Int) (b : ByteSeq) :
    (RequestModifier.Bytes b ⟨method, hdr, b0, cl⟩).body = some (Stream.mem b) ∧
    RequestModifier.Bytes b ⟨"GET", hdr, b0, cl⟩ = ⟨"GET", hdr, some (Stream.mem b), cl⟩ ∧
    RequestModifier.Bytes b ⟨"HEAD", hdr, b0, cl⟩ = ⟨"HEAD", hdr, some (Stream.mem b), cl⟩ :=
  ⟨rfl, rfl, rfl⟩

/-- C8: `ReadBytes` (request and response variants) drains the body fully;
on success it returns the bytes and re-arms the body as a fresh in-memory
stream over those same bytes — the resulting message is literally one
whose body stream again holds the returned bytes, so this very equation
shows that a subsequent read yields them again; on a stream read failure
the error is returned unswallowed and the body is left as the drained
failing reader, not re-armed. -/
theorem readbytes_drains_and_rearms (method : String) (hdr : Header) (cl : Int) (d : ByteSeq)
    (rq : HttpRequest) (sc : Nat) (stt : String) (rcl : Int) :
    RequestModifier.ReadBytes ⟨method, hdr, some (Stream.mem d), cl⟩ =
      ReadOutcome.ok d ⟨method, hdr, some (Stream.mem d), cl⟩ ∧
    RequestModifier.ReadBytes ⟨method, hdr, some (Stream.failAfter d), cl⟩ =
      ReadOutcome.err GoErr.readErr ⟨method, hdr, some (Stream.failAfter []), cl⟩ ∧
    ResponseModifier.ReadBytes ⟨rq, ⟨sc, stt, hdr, Stream.mem d, rcl⟩⟩ =
      ReadOutcome.ok d ⟨rq, ⟨sc, stt, hdr, Stream.mem d, rcl⟩⟩ ∧
    ResponseModifier.ReadBytes ⟨rq, ⟨sc, stt, hdr, Stream.failAfter d, rcl⟩⟩ =
      ReadOutcome.err GoErr.readErr ⟨rq, ⟨sc, stt, hdr, Stream.failAfter [], rcl⟩⟩ :=
  ⟨rfl, rfl, rfl, rfl⟩

/-- C9: `DecodeJSON`/`DecodeXML` (request and response variants), for any
decoder that reports `io.EOF` on empty input (as Go's JSON and XML
decoders do): an empty body decodes as a success that leaves the target
untouched, while a non-empty body on which the decoder reports a syntax
error yields a decode failure carrying that underlying error. -/
theorem decode_empty_ok_malformed_err {V : Type} (dec : ByteSeq → DecodeResult V)
    (hEof : dec [] = DecodeResult.eof) :
    (∀ (method : String) (hdr : Header) (cl : Int) (t : V),
      RequestModifier.DecodeJSON dec ⟨method, hdr, some (Stream.mem []), cl⟩ t =
        DecodeOutcome.ok t ⟨method, hdr, some (Stream.mem []), cl⟩) ∧
    (∀ (method : String) (hdr : Header) (cl : Int) (t : V) (d : ByteSeq) (msg : String),
      dec d = DecodeResult.syntaxErr msg →
      RequestModifier.DecodeJSON dec ⟨method, hdr, some (Stream.mem d), cl⟩ t =
        DecodeOutcome.err (GoErr.syntaxErr msg) ⟨method, hdr, some (Stream.mem d), cl⟩) ∧
    (∀ (rq : HttpRequest) (sc : Nat) (stt : String) (hdr : Header) (rcl : Int) (t : V),
      ResponseModifier.DecodeJSON dec ⟨rq, ⟨sc, stt, hdr, Stream.mem [], rcl⟩⟩ t =
        DecodeOutcome.ok t ⟨rq, ⟨sc, stt, hdr, Stream.mem [], rcl⟩⟩) ∧
    (∀ (rq : HttpRequest) (sc : Nat) (stt : String) (hdr : Header) (rcl : Int) (t : V)
        (d : ByteSeq) (msg : String),
      dec d = DecodeResult.syntaxErr msg →
      ResponseModifier.DecodeJSON dec ⟨rq, ⟨sc, stt, hdr, Stream.mem d, rcl⟩⟩ t =
        DecodeOutcome.err (GoErr.syntaxErr msg) ⟨rq, ⟨sc, stt, hdr, Stream.mem d, rcl⟩⟩) := by
  refine ⟨?_, ?_, ?_, ?_⟩
  · intro method hdr cl t
    have h1 : RequestModifier.DecodeJSON dec ⟨method, hdr, some (Stream.mem []), cl⟩ t =
        (match dec [] with
          | DecodeResult.ok v => DecodeOutcome.ok v ⟨method, hdr, some (Stream.mem []), cl⟩
          | DecodeResult.eof => DecodeOutcome.ok t ⟨method, hdr, some (Stream.mem []), cl⟩
          | DecodeResult.syntaxErr msg =>
              DecodeOutcome.err (GoErr.syntaxErr msg) ⟨method, hdr, some (Stream.mem []), cl⟩) :=
      rfl
    rw [h1, hEof]
  · intro method hdr cl t d msg hd
    have h1 : RequestModifier.DecodeJSON dec ⟨method, hdr, some (Stream.mem d), cl⟩ t =
        (match dec d with
          | DecodeResult.ok v => DecodeOutcome.ok v ⟨method, hdr, some (Stream.mem d), cl⟩
          | DecodeResult.eof => DecodeOutcome.ok t ⟨method, hdr, some (Stream.mem d), cl⟩
          | DecodeResult.syntaxErr msg =>
              DecodeOutcome.err (GoErr.syntaxErr msg) ⟨method, hdr, some (Stream.mem d), cl⟩) :=
      rfl
    rw [h1, hd]
  · intro rq sc stt hdr rcl t
    have h1 : ResponseModifier.DecodeJSON dec ⟨rq, ⟨sc, stt, hdr, Stream.mem [], rcl⟩⟩ t =
        (match dec [] with
          | DecodeResult.ok v => DecodeOutcome.ok v ⟨rq, ⟨sc, stt, hdr, Stream.mem [], rcl⟩⟩
          | DecodeResult.eof => DecodeOutcome.ok t ⟨rq, ⟨sc, stt, hdr, Stream.mem [], rcl⟩⟩
          | DecodeResult.syntaxErr msg =>
              DecodeOutcome.err (GoErr.syntaxErr msg) ⟨rq, ⟨sc, stt, hdr, Stream.mem [], rcl⟩⟩) :=
      rfl
    rw [h1, hEof]
  · intro rq sc stt hdr rcl t d msg hd
    have h1 : ResponseModifier.DecodeJSON dec ⟨rq, ⟨sc, stt, hdr, Stream.mem d, rcl⟩⟩ t =
        (match dec d with
          | DecodeResult.ok v => DecodeOutcome.ok v ⟨rq, ⟨sc, stt, hdr, Stream.mem d, rcl⟩⟩
          | DecodeResult.eof => DecodeOutcome.ok t ⟨rq, ⟨sc, stt, hdr, Stream.mem d, rcl⟩⟩
          | DecodeResult.syntaxErr msg =>
              DecodeOutcome.err (GoErr.syntaxErr msg) ⟨rq, ⟨sc, stt, hdr, Stream.mem d, rcl⟩⟩) :=
      rfl
    rw [h1, hd]

/-- Toy decoder used to witness the decode theorem: `io.EOF` on empty
input, a syntax error on "/", success otherwise. -/
def toyDec : ByteSeq → DecodeResult Nat :=
  fun b =>
    if b = [] then DecodeResult.eof
    else if b = "/".toList then DecodeResult.syntaxErr "invalid character"
    else DecodeResult.ok 0

/-- Witness for the decode theorem at a concrete decoder and inputs. -/
theorem decode_empty_ok_malformed_err_witness :
    RequestModifier.DecodeJSON toyDec ⟨"GET", [], some (Stream.mem []), 0⟩ 7 =
      DecodeOutcome.ok 7 ⟨"GET", [], some (Stream.mem []), 0⟩ ∧
    RequestModifier.DecodeJSON toyDec ⟨"GET", [], some (Stream.mem "/".toList), 0⟩ 7 =
      DecodeOutcome.err (GoErr.syntaxErr "invalid character")
        ⟨"GET", [], some (Stream.mem "/".toList), 0⟩ :=
  ⟨(decode_empty_ok_malformed_err toyDec (by rfl)).1 "GET" [] 0 7,
   (decode_empty_ok_malformed_err toyDec (by rfl)).2.1 "GET" [] 0 7 "/".toList
     "invalid character" (by rfl)⟩

/-- Fresh response modifier used to exhibit the behavior of `Reader`. -/
def readerProbe : ResponseModifier :=
  { request := { method := "GET", header := [], body := none, contentLength := 0 }
    response := { statusCode := 200, status := "200 OK", header := [], body := Stream.mem []
                  contentLength := 0 } }

/-- C3: `ResponseModifier.Reader` does not adopt the stream as the body of
the response being modified: on a fresh modifier and an in-memory
`bytes.Buffer` stream of 5 bytes it leaves the response (body and
content-length) completely unchanged, and instead installs the stream and
its length on the wrapped request. -/
theorem reader_mutates_request_not_response :
    (ResponseModifier.Reader (ReaderArg.bytesBuffer "Hello".toList) readerProbe).response
        = readerProbe.response ∧
    (ResponseModifier.Reader (ReaderArg.bytesBuffer "Hello".toList) readerProbe).request.body
        = some (Stream.mem "Hello".toList) ∧
    (ResponseModifier.Reader (ReaderArg.bytesBuffer "Hello".toList) readerProbe).request.contentLength
        = 5 :=
  ⟨rfl, rfl, rfl⟩

/-- C1: with no declared Content-Length, a single `Write` does not behave
as claimed: for every modifier function, the chunk is placed in the
interceptor's raw buffer but the pending body is never set from it, the
modifier is never invoked (the ghost counter stays 0 and the result does
not depend on the modifier), and the flush emits the untouched initial
empty body to the real sink, returning byte count 0. -/
theorem write_no_content_length_skips_modifier (mod : HttpResponse → HttpResponse) :
    WriterInterceptor.Write mod "hello".toList NewWriterInterceptor =
      some
        ({ closed := true, headerWritten := true, mutexLocked := false, buf := []
           response := { statusCode := 200, status := "200 OK", header := []
                         body := Stream.mem [], contentLength := 0 }
           sink := [SinkEvent.status 200, SinkEvent.headerCopy [], SinkEvent.bodyWrite []]
           modifierCalls := 0 }, 0, false) :=
  rfl

/-- C5: `Close` is idempotent only up to the second call: the first call
releases the buffer and marks the interceptor closed (unlocking the
mutex), the second observes the closed flag and returns with no release —
but through the early `return` that skips `mutex.Unlock`, so the mutex
stays held and the third call blocks forever in `mutex.Lock` (`none`). -/
theorem close_three_times_blocks :
    CloseN 1 NewWriterInterceptor =
      some { NewWriterInterceptor with closed := true, buf := [] } ∧
    CloseN 2 NewWriterInterceptor =
      some { NewWriterInterceptor with closed := true, buf := [], mutexLocked := true } ∧
    CloseN 3 NewWriterInterceptor = none :=
  ⟨rfl, rfl, rfl⟩

/-- Running a handler directly against the real sink produces exactly the
handler's calls, in order. -/
theorem runDirect_eq (h : List HandlerOp) (sink : List SinkEvent) :
    runDirect h sink = sink ++ h.map evOf := by
  induction h generalizing sink with
  | nil => simp [runDirect]
  | cons op rest ih => simp [runDirect, ih]

/-- C6: for OPTIONS and HEAD requests the middleware built by `Response fn`
invokes the wrapped handler directly against the real sink: whatever the
handler does and whatever the modifier is, the real sink receives exactly
the handler's calls unchanged (no interceptor in between) and the modifier
is invoked zero times. -/
theorem response_bypasses_options_head (mod : HttpResponse → HttpResponse)
    (h : List HandlerOp) :
    Response mod h "OPTIONS" = some (h.map evOf, 0) ∧
    Response mod h "HEAD" = some (h.map evOf, 0) := by
  constructor
  · rw [show Response mod h "OPTIONS" = some (runDirect h [], 0) from rfl, runDirect_eq]
    simp
  · rw [show Response mod h "HEAD" = some (runDirect h [], 0) from rfl, runDirect_eq]
    simp

/-- C2 counterexample: with declared Content-Length 11 and the write
sequence "hello " (6 bytes), "world" (5 bytes), "" (0 bytes), the modifier
is invoked twice — the trailing empty write leaves the running total at
exactly 11, which re-enters the completion branch — refuting "never
twice". -/
theorem modifier_refires_on_trailing_empty_write :
    (runWrites id ["hello ".toList, "world".toList, []] (withContentLength "11")).map
        WriterInterceptor.modifierCalls = some 2 :=
  rfl

end Intercept

namespace Intercept

/-- Lemma: `Close` on an unlocked, not-yet-closed interceptor: marks closed,
discards the buffer, releases the mutex. -/
theorem close_spec (w : WriterInterceptor) (hmu : w.mutexLocked = false)
    (hcl : w.closed = false) :
    WriterInterceptor.Close w = some { w with closed := true, buf := [], mutexLocked := false } := by
  simp [WriterInterceptor.Close, hmu, hcl]

/-- Lemma: `writeHeader` touches only the sink trace and the header-written flag. -/
theorem writeHeader_fields (w : WriterInterceptor) :
    (WriterInterceptor.writeHeader w).response = w.response ∧
    (WriterInterceptor.writeHeader w).closed = w.closed ∧
    (WriterInterceptor.writeHeader w).mutexLocked = w.mutexLocked ∧
    (WriterInterceptor.writeHeader w).buf = w.buf ∧
    (WriterInterceptor.writeHeader w).modifierCalls = w.modifierCalls := by
  by_cases h : (w.headerWritten || w.closed) = true
  · simp [WriterInterceptor.writeHeader, h]
  · by_cases h2 : w.response.statusCode = 0
    · simp [WriterInterceptor.writeHeader, h, h2]
    · simp [WriterInterceptor.writeHeader, h, h2]

/-- Lemma: `writeBody` on an unlocked interceptor never blocks and leaves the
pending header collection, the running content length and the modifier
counter unchanged, with the mutex released. -/
theorem writeBody_spec (w : WriterInterceptor) (hmu : w.mutexLocked = false) :
    ∃ p, WriterInterceptor.writeBody w = some p ∧
      p.1.response.header = w.response.header ∧
      p.1.response.contentLength = w.response.contentLength ∧
      p.1.modifierCalls = w.modifierCalls ∧
      p.1.mutexLocked = false := by
  by_cases hcl : w.closed = true
  · exact ⟨(w, 0, false), by simp [WriterInterceptor.writeBody, hcl], rfl, rfl, rfl, hmu⟩
  · have hcl2 : w.closed = false := by simpa using hcl
    cases hb : w.response.body with
    | mem d =>
      refine ⟨({ w with
                 response := { w.response with body := Stream.mem [] }
                 sink := w.sink ++ [SinkEvent.bodyWrite d]
                 closed := true
                 buf := []
                 mutexLocked := false }, d.length, false), ?_, rfl, rfl, rfl, rfl⟩
      simp [WriterInterceptor.writeBody, WriterInterceptor.Close, hcl2, hb, hmu, readAll]
    | failAfter d =>
      refine ⟨({ w with
                 response := { w.response with body := Stream.failAfter [] }
                 closed := true
                 buf := []
                 mutexLocked := false }, 0, true), ?_, rfl, rfl, rfl, rfl⟩
      simp [WriterInterceptor.writeBody, WriterInterceptor.Close, hcl2, hb, hmu, readAll]

/-- Lemma: `DoWrite` on an unlocked interceptor never blocks and preserves the
pending header collection, the running content length and the modifier
counter, releasing the mutex. -/
theorem DoWrite_spec (w : WriterInterceptor) (hmu : w.mutexLocked = false) :
    ∃ p, WriterInterceptor.DoWrite w = some p ∧
      p.1.response.header = w.response.header ∧
      p.1.response.contentLength = w.response.contentLength ∧
      p.1.modifierCalls = w.modifierCalls ∧
      p.1.mutexLocked = false := by
  obtain ⟨hr, hc, hm, hb, hmc⟩ := writeHeader_fields w
  obtain ⟨p, hp, h1, h2, h3, h4⟩ := writeBody_spec (WriterInterceptor.writeHeader w) (by rw [hm]; exact hmu)
  exact ⟨p, hp, by rw [h1, hr], by rw [h2, hr], by rw [h3, hmc], h4⟩

end Intercept

namespace Intercept

/-- One `Write` call under a declared Content-Length header value `s`
(neither `""` nor `"0"`), for a modifier that preserves the Content-Length
header and the running content length: the call never blocks, the header
value and the free mutex persist, the running total grows by the chunk
length, and the modifier fires exactly when the new total equals
`atoi s`. -/
theorem write_step (mod : HttpResponse → HttpResponse)
    (hm1 : ∀ r, headerGet (mod r).header "Content-Length" = headerGet r.header "Content-Length")
    (hm2 : ∀ r, (mod r).contentLength = r.contentLength)
    (s : String) (hs : ¬(s = "" ∨ s = "0"))
    (b : ByteSeq) (w : WriterInterceptor)
    (hh : headerGet w.response.header "Content-Length" = s)
    (hmu : w.mutexLocked = false) :
    ∃ p, WriterInterceptor.Write mod b w = some p ∧
      headerGet p.1.response.header "Content-Length" = s ∧
      p.1.mutexLocked = false ∧
      p.1.response.contentLength = w.response.contentLength + (b.length : Int) ∧
      p.1.modifierCalls = w.modifierCalls +
        (if w.response.contentLength + (b.length : Int) = atoi s then 1 else 0) := by
  simp only [WriterInterceptor.Write]
  rw [hh, if_neg hs]
  split
  · -- running total still differs from the declared length: no trigger
    rename_i hne
    refine ⟨_, rfl, hh, hmu, rfl, ?_⟩
    have hne2 : ¬(w.response.contentLength + (b.length : Int) = atoi s) := by
      intro hx; exact hne hx
    simp [hne2]
  · -- completion: body is set, the modifier runs, then the flush
    rename_i heq
    have htr : w.response.contentLength + (b.length : Int) = atoi s := by
      by_contra hx
      exact heq (fun hy => hx hy)
    obtain ⟨p, hp, h1, h2, h3, h4⟩ := DoWrite_spec
      { w with
        response := mod { w.response with
          contentLength := w.response.contentLength + (b.length : Int)
          body := Stream.mem (w.buf ++ b) }
        buf := w.buf ++ b
        modifierCalls := w.modifierCalls + 1 } hmu
    refine ⟨p, hp, ?_, h4, ?_, ?_⟩
    · rw [h1]
      show headerGet (mod { w.response with
          contentLength := w.response.contentLength + (b.length : Int)
          body := Stream.mem (w.buf ++ b) }).header "Content-Length" = s
      rw [hm1]
      exact hh
    · rw [h2]
      show (mod { w.response with
          contentLength := w.response.contentLength + (b.length : Int)
          body := Stream.mem (w.buf ++ b) }).contentLength = _
      rw [hm2]
    · rw [h3, if_pos htr]

/-- Running a list of `Write` calls under a declared Content-Length `s`:
the run never blocks and the modifier-invocation counter grows by the
number of prefixes of the write sequence whose byte total equals
`atoi s`. -/
theorem runWrites_count (mod : HttpResponse → HttpResponse)
    (hm1 : ∀ r, headerGet (mod r).header "Content-Length" = headerGet r.header "Content-Length")
    (hm2 : ∀ r, (mod r).contentLength = r.contentLength)
    (s : String) (hs : ¬(s = "" ∨ s = "0")) (bs : List ByteSeq) :
    ∀ w, headerGet w.response.header "Content-Length" = s → w.mutexLocked = false →
      ∃ w2, runWrites mod bs w = some w2 ∧
        w2.modifierCalls = w.modifierCalls +
          countTriggers (atoi s) w.response.contentLength bs := by
  induction bs with
  | nil =>
    intro w h1 h2
    exact ⟨w, rfl, by simp [countTriggers]⟩
  | cons b rest ih =>
    intro w h1 h2
    obtain ⟨p, hp, hh2, hmu2, hcl2, hmc2⟩ := write_step mod hm1 hm2 s hs b w h1 h2
    obtain ⟨w2, hrun, hcount⟩ := ih p.1 hh2 hmu2
    refine ⟨w2, ?_, ?_⟩
    · show (WriterInterceptor.Write mod b w).bind (fun q => runWrites mod rest q.1) = some w2
      rw [hp]
      exact hrun
    · rw [hcount, hmc2, hcl2]
      show _ = w.modifierCalls +
        ((if w.response.contentLength + (b.length : Int) = atoi s then 1 else 0) +
          countTriggers (atoi s) (w.response.contentLength + (b.length : Int)) rest)
      omega

/-- C2 (amended): with a declared Content-Length header value `s` (for a
modifier preserving the Content-Length header and running total), the
modifier is invoked exactly as many times as there are write prefixes
whose byte total equals `atoi s` exactly — so never before the total first
equals the declared length and never on a write that overshoots it, but a
write after completion that leaves the total unchanged re-invokes it.  In
the concrete 11-byte scenario, writes of 6 then 5 bytes fire the modifier
only on the second write, and the modifier (here one that records what it
sees into the status string) observes the full body "hello world". -/
theorem modifier_trigger_count (mod : HttpResponse → HttpResponse)
    (hm1 : ∀ r, headerGet (mod r).header "Content-Length" = headerGet r.header "Content-Length")
    (hm2 : ∀ r, (mod r).contentLength = r.contentLength)
    (s : String) (hs1 : s ≠ "") (hs2 : s ≠ "0") (bs : List ByteSeq) :
    (∃ w2, runWrites mod bs (withContentLength s) = some w2 ∧
       w2.modifierCalls = countTriggers (atoi s) 0 bs) ∧
    (runWrites recMod ["hello ".toList, "world".toList] (withContentLength "11")).map
        (fun w => (w.modifierCalls, w.response.status)) = some (1, "hello world") ∧
    (runWrites recMod ["hello ".toList] (withContentLength "11")).map
        WriterInterceptor.modifierCalls = some 0 := by
  refine ⟨?_, rfl, rfl⟩
  have hs : ¬(s = "" ∨ s = "0") := by
    rintro (h | h)
    · exact hs1 h
    · exact hs2 h
  obtain ⟨w2, h1, h2⟩ := runWrites_count mod hm1 hm2 s hs bs (withContentLength s) rfl rfl
  refine ⟨w2, h1, ?_⟩
  rw [h2]
  show 0 + countTriggers (atoi s) 0 bs = countTriggers (atoi s) 0 bs
  exact Nat.zero_add _

/-- Witness for the trigger-count theorem: declared Content-Length 11,
identity modifier, writes of 6 then 5 bytes — exactly one invocation. -/
theorem modifier_trigger_count_witness :
    ∃ w2, runWrites id ["hello ".toList, "world".toList] (withContentLength "11") = some w2 ∧
      w2.modifierCalls = 1 := by
  obtain ⟨w2, h1, h2⟩ := (modifier_trigger_count id (fun r => rfl) (fun r => rfl) "11"
    (by decide) (by decide) ["hello ".toList, "world".toList]).1
  refine ⟨w2, h1, ?_⟩
  rw [h2]
  rfl

end Intercept

namespace Intercept

/-- Invariant of the interception sink: before the header phase has run
nothing has been emitted; the emitted trace is header-phase events
followed only by body writes; and each kind of header-phase event occurs
at most once. -/
def InvC4 (w : WriterInterceptor) : Prop :=
  (w.headerWritten = false → w.sink = []) ∧
  phasedTrace w.sink = true ∧
  (w.sink.filter isCopyEv).length ≤ 1 ∧
  (w.sink.filter isStatusEv).length ≤ 1

/-- Appending a body write keeps the trace phased. -/
theorem phased_append_body (t : List SinkEvent) (e : SinkEvent) (he : isBodyEv e = true)
    (h : phasedTrace t = true) : phasedTrace (t ++ [e]) = true := by
  induction t with
  | nil => simp [phasedTrace, he]
  | cons a rest ih =>
    by_cases hb : isBodyEv a = true
    · simp only [phasedTrace, hb, if_true] at h
      simp only [List.cons_append, phasedTrace, hb, if_true]
      simp [List.all_append, h, he]
    · simp only [phasedTrace, hb] at h
      simp only [List.cons_append, phasedTrace, hb]
      simpa using ih h

/-- Appending an event the filter rejects does not change the count. -/
theorem filter_count_append_other (t : List SinkEvent) (e : SinkEvent) (p : SinkEvent → Bool)
    (he : p e = false) : ((t ++ [e]).filter p).length = (t.filter p).length := by
  simp [List.filter_append, he]

/-- The invariant only concerns the sink trace and the header flag, so it
transfers along any state change preserving both. -/
theorem invC4_transfer (w w2 : WriterInterceptor) (hs : w2.sink = w.sink)
    (hh : w2.headerWritten = w.headerWritten) (h : InvC4 w) : InvC4 w2 := by
  obtain ⟨h1, h2, h3, h4⟩ := h
  refine ⟨?_, ?_, ?_, ?_⟩
  · intro hx
    rw [hs]
    exact h1 (by rw [← hh]; exact hx)
  · rw [hs]; exact h2
  · rw [hs]; exact h3
  · rw [hs]; exact h4

/-- After `writeHeader`, the header flag is set unless the sink was
already closed. -/
theorem writeHeader_ready (w : WriterInterceptor) :
    (WriterInterceptor.writeHeader w).headerWritten = true ∨
    (WriterInterceptor.writeHeader w).closed = true := by
  by_cases hg : (w.headerWritten || w.closed) = true
  · rw [show WriterInterceptor.writeHeader w = w from by simp [WriterInterceptor.writeHeader, hg]]
    exact Bool.or_eq_true_iff.mp hg
  · left
    by_cases hsc : w.response.statusCode = 0 <;>
      simp [WriterInterceptor.writeHeader, hg, hsc]

/-- Lemma: `writeHeader` preserves the invariant: it emits the header phase at
most once, onto an empty trace. -/
theorem writeHeader_invC4 (w : WriterInterceptor) (h : InvC4 w) :
    InvC4 (WriterInterceptor.writeHeader w) := by
  by_cases hg : (w.headerWritten || w.closed) = true
  · rw [show WriterInterceptor.writeHeader w = w from by simp [WriterInterceptor.writeHeader, hg]]
    exact h
  · have hw : w.headerWritten = false := by
      cases hb : w.headerWritten
      · rfl
      · simp [hb] at hg
    have hsink : w.sink = [] := h.1 hw
    by_cases hsc : w.response.statusCode = 0
    · rw [show WriterInterceptor.writeHeader w =
          { w with sink := w.sink ++ [SinkEvent.headerCopy w.response.header]
                   headerWritten := true } from by
        simp [WriterInterceptor.writeHeader, hg, hsc]]
      refine ⟨?_, ?_, ?_, ?_⟩
      · intro hx; simp at hx
      · show phasedTrace (w.sink ++ [SinkEvent.headerCopy w.response.header]) = true
        rw [hsink]
        simp [phasedTrace, isBodyEv]
      · show ((w.sink ++ [SinkEvent.headerCopy w.response.header]).filter isCopyEv).length ≤ 1
        rw [hsink]
        simp [isCopyEv]
      · show ((w.sink ++ [SinkEvent.headerCopy w.response.header]).filter isStatusEv).length ≤ 1
        rw [hsink]
        simp [isStatusEv]
    · rw [show WriterInterceptor.writeHeader w =
          { w with sink := (w.sink ++ [SinkEvent.status w.response.statusCode]) ++
                     [SinkEvent.headerCopy w.response.header]
                   headerWritten := true } from by
        simp [WriterInterceptor.writeHeader, hg, hsc]]
      refine ⟨?_, ?_, ?_, ?_⟩
      · intro hx; simp at hx
      · show phasedTrace ((w.sink ++ [SinkEvent.status w.response.statusCode]) ++
            [SinkEvent.headerCopy w.response.header]) = true
        rw [hsink]
        simp [phasedTrace, isBodyEv]
      · show (((w.sink ++ [SinkEvent.status w.response.statusCode]) ++
            [SinkEvent.headerCopy w.response.header]).filter isCopyEv).length ≤ 1
        rw [hsink]
        simp [isCopyEv]
      · show (((w.sink ++ [SinkEvent.status w.response.statusCode]) ++
            [SinkEvent.headerCopy w.response.header]).filter isStatusEv).length ≤ 1
        rw [hsink]
        simp [isStatusEv]

/-- Lemma: `writeBody` preserves the invariant whenever the header phase already
ran (or the sink is closed): the only event it may append is a body
write. -/
theorem writeBody_invC4 (w : WriterInterceptor) (p : WriterInterceptor × Nat × Bool)
    (hready : w.headerWritten = true ∨ w.closed = true)
    (hstep : WriterInterceptor.writeBody w = some p)
    (h : InvC4 w) : InvC4 p.1 := by
  by_cases hcl : w.closed = true
  · have hstep2 : some ((w, 0, false) : WriterInterceptor × Nat × Bool) = some p := by
      rw [← hstep]; simp [WriterInterceptor.writeBody, hcl]
    rw [← Option.some.inj hstep2]
    exact h
  · have hw : w.headerWritten = true := hready.resolve_right hcl
    have hcl2 : w.closed = false := by simpa using hcl
    by_cases hmu : w.mutexLocked = true
    · exfalso
      cases hb : w.response.body with
      | mem d =>
        rw [show WriterInterceptor.writeBody w = none from by
          simp [WriterInterceptor.writeBody, WriterInterceptor.Close, hcl2, hb, hmu]] at hstep
        exact Option.noConfusion hstep
      | failAfter d =>
        rw [show WriterInterceptor.writeBody w = none from by
          simp [WriterInterceptor.writeBody, WriterInterceptor.Close, hcl2, hb, hmu]] at hstep
        exact Option.noConfusion hstep
    · have hmu2 : w.mutexLocked = false := by simpa using hmu
      cases hb : w.response.body with
      | mem d =>
        have hstep2 : some (({ w with
            response := { w.response with body := Stream.mem [] }
            sink := w.sink ++ [SinkEvent.bodyWrite d]
            closed := true
            buf := []
            mutexLocked := false }, d.length, false) : WriterInterceptor × Nat × Bool) = some p := by
          rw [← hstep]
          simp [WriterInterceptor.writeBody, WriterInterceptor.Close, readAll, hcl2, hb, hmu2]
        rw [← Option.some.inj hstep2]
        obtain ⟨h1, h2, h3, h4⟩ := h
        refine ⟨?_, ?_, ?_, ?_⟩
        · intro hx
          have hx2 : w.headerWritten = false := hx
          rw [hw] at hx2
          exact Bool.noConfusion hx2
        · show phasedTrace (w.sink ++ [SinkEvent.bodyWrite d]) = true
          exact phased_append_body _ _ rfl h2
        · show ((w.sink ++ [SinkEvent.bodyWrite d]).filter isCopyEv).length ≤ 1
          rw [filter_count_append_other _ _ _ rfl]
          exact h3
        · show ((w.sink ++ [SinkEvent.bodyWrite d]).filter isStatusEv).length ≤ 1
          rw [filter_count_append_other _ _ _ rfl]
          exact h4
      | failAfter d =>
        have hstep2 : some (({ w with
            response := { w.response with body := Stream.failAfter [] }
            closed := true
            buf := []
            mutexLocked := false }, 0, true) : WriterInterceptor × Nat × Bool) = some p := by
          rw [← hstep]
          simp [WriterInterceptor.writeBody, WriterInterceptor.Close, readAll, hcl2, hb, hmu2]
        rw [← Option.some.inj hstep2]
        exact invC4_transfer w _ rfl rfl h

/-- Lemma: `DoWrite` preserves the invariant. -/
theorem DoWrite_invC4 (w : WriterInterceptor) (p : WriterInterceptor × Nat × Bool)
    (hstep : WriterInterceptor.DoWrite w = some p) (h : InvC4 w) : InvC4 p.1 :=
  writeBody_invC4 _ _ (writeHeader_ready w) hstep (writeHeader_invC4 w h)

/-- Lemma: `Write` preserves the invariant. -/
theorem write_invC4 (mod : HttpResponse → HttpResponse) (b : ByteSeq)
    (w : WriterInterceptor) (p : WriterInterceptor × Nat × Bool)
    (hstep : WriterInterceptor.Write mod b w = some p) (h : InvC4 w) : InvC4 p.1 := by
  simp only [WriterInterceptor.Write] at hstep
  split at hstep
  · exact DoWrite_invC4 _ _ hstep (invC4_transfer w _ rfl rfl h)
  · split at hstep
    · rw [← Option.some.inj hstep]
      exact invC4_transfer w _ rfl rfl h
    · exact DoWrite_invC4 _ _ hstep (invC4_transfer w _ rfl rfl h)

/-- Every single operation preserves the invariant. -/
theorem stepOp_invC4 (mod : HttpResponse → HttpResponse) (op : Op) (w w2 : WriterInterceptor)
    (hstep : stepOp mod op w = some w2) (h : InvC4 w) : InvC4 w2 := by
  cases op with
  | setStatus n =>
    rw [← Option.some.inj hstep]
    exact invC4_transfer w _ rfl rfl h
  | setHeader k v =>
    rw [← Option.some.inj hstep]
    exact invC4_transfer w _ rfl rfl h
  | write b =>
    have hstep2 : (WriterInterceptor.Write mod b w).map (fun q => q.1) = some w2 := hstep
    cases hp : WriterInterceptor.Write mod b w with
    | none => rw [hp] at hstep2; exact Option.noConfusion hstep2
    | some p =>
      rw [hp] at hstep2
      rw [← Option.some.inj hstep2]
      exact write_invC4 mod b w p hp h
  | close =>
    have hstep2 : WriterInterceptor.Close w = some w2 := hstep
    unfold WriterInterceptor.Close at hstep2
    split at hstep2
    · exact Option.noConfusion hstep2
    · split at hstep2
      · rw [← Option.some.inj hstep2]
        exact invC4_transfer w _ rfl rfl h
      · rw [← Option.some.inj hstep2]
        exact invC4_transfer w _ rfl rfl h
  | doWrite =>
    have hstep2 : (WriterInterceptor.DoWrite w).map (fun q => q.1) = some w2 := hstep
    cases hp : WriterInterceptor.DoWrite w with
    | none => rw [hp] at hstep2; exact Option.noConfusion hstep2
    | some p =>
      rw [hp] at hstep2
      rw [← Option.some.inj hstep2]
      exact DoWrite_invC4 w p hp h

/-- Any successful run of operations preserves the invariant. -/
theorem runOps_invC4 (mod : HttpResponse → HttpResponse) (ops : List Op) :
    ∀ w w2, runOps mod ops w = some w2 → InvC4 w → InvC4 w2 := by
  induction ops with
  | nil =>
    intro w w2 hrun h
    rw [← Option.some.inj hrun]
    exact h
  | cons op rest ih =>
    intro w w2 hrun h
    have hrun2 : (stepOp mod op w).bind (fun x => runOps mod rest x) = some w2 := hrun
    cases hs : stepOp mod op w with
    | none => rw [hs] at hrun2; exact Option.noConfusion hrun2
    | some wmid =>
      rw [hs] at hrun2
      exact ih wmid w2 hrun2 (stepOp_invC4 mod op w wmid hs h)

/-- The fresh interceptor satisfies the invariant. -/
theorem invC4_init : InvC4 NewWriterInterceptor :=
  ⟨fun _ => rfl, rfl, by simp [NewWriterInterceptor], by simp [NewWriterInterceptor]⟩

/-- C4: for every modifier and every sequence of operations driving a
fresh `WriterInterceptor` (writes, status and header mutations, closes and
flushes — in particular invoking `DoWrite` twice), the real sink's trace
has every header-phase event before every body write, and the header
phase runs at most once: at most one status-line write and at most one
header copy ever reach the real sink. -/
theorem header_phase_once_before_body (mod : HttpResponse → HttpResponse) (ops : List Op)
    (w2 : WriterInterceptor) (hrun : runOps mod ops NewWriterInterceptor = some w2) :
    phasedTrace w2.sink = true ∧
    (w2.sink.filter isCopyEv).length ≤ 1 ∧
    (w2.sink.filter isStatusEv).length ≤ 1 := by
  obtain ⟨h1, h2, h3, h4⟩ := runOps_invC4 mod ops NewWriterInterceptor w2 hrun invC4_init
  exact ⟨h2, h3, h4⟩

/-- Witness for C4 at the double-flush run: two `DoWrite` invocations from
a fresh interceptor emit the header phase exactly once, before the single
body write. -/
theorem header_phase_once_before_body_witness :
    phasedTrace [SinkEvent.status 200, SinkEvent.headerCopy [], SinkEvent.bodyWrite []] = true ∧
    (([SinkEvent.status 200, SinkEvent.headerCopy [], SinkEvent.bodyWrite []] :
        List SinkEvent).filter isCopyEv).length ≤ 1 ∧
    (([SinkEvent.status 200, SinkEvent.headerCopy [], SinkEvent.bodyWrite []] :
        List SinkEvent).filter isStatusEv).length ≤ 1 :=
  header_phase_once_before_body id [Op.doWrite, Op.doWrite]
    { closed := true, headerWritten := true, mutexLocked := false, buf := []
      response := { statusCode := 200, status := "200 OK", header := [], body := Stream.mem []
                    contentLength := 0 }
      sink := [SinkEvent.status 200, SinkEvent.headerCopy [], SinkEvent.bodyWrite []]
      modifierCalls := 0 } rfl

end Intercept
